import Mathlib

/-!
Verification development for the `postmortem` JSON-schema validation library.

The Rust source is embedded shallowly: pure functions become Lean functions,
trait objects (`dyn SchemaLike` / `dyn ValueValidator`) become function values,
and the recursive schema graph reachable through the registry becomes a deep
`Schema` inductive together with an interpreter.  Machine integers are modelled
as `Nat`/`Int` with the explicit i64/u64 bounds used by `serde_json`.
-/

namespace Postmortem

/-! ## Paths (src/path.rs) -/

/-- A segment of a JSON path (`PathSegment` in src/path.rs). -/
inductive PathSegment where
  | field (name : String)
  | index (idx : Nat)
  deriving DecidableEq, Repr

/-- A path to a value in a nested JSON structure (`JsonPath` in src/path.rs). -/
structure JsonPath where
  segments : List PathSegment
  deriving DecidableEq, Repr

/-- `JsonPath::root()`: the empty path. -/
def JsonPath.root : JsonPath := ⟨[]⟩

/-- `JsonPath::push_field`: returns a new path with a field segment appended. -/
def JsonPath.push_field (p : JsonPath) (name : String) : JsonPath :=
  ⟨p.segments ++ [PathSegment.field name]⟩

/-- `JsonPath::push_index`: returns a new path with an index segment appended. -/
def JsonPath.push_index (p : JsonPath) (idx : Nat) : JsonPath :=
  ⟨p.segments ++ [PathSegment.index idx]⟩

/-- `JsonPath::is_root`. -/
def JsonPath.is_root (p : JsonPath) : Bool := p.segments.isEmpty

/-- A single quote character, used when rendering error messages. -/
def squote : String := String.singleton (Char.ofNat 39)

/-- Renders the tail of a path display, where `first` records whether the
segment is the first one (the Rust `Display` impl prints a dot before a field
segment only when it is not first). -/
def renderSegments : List PathSegment → Bool → String
  | [], _ => ""
  | PathSegment.field name :: rest, first =>
      (if first then name else "." ++ name) ++ renderSegments rest false
  | PathSegment.index idx :: rest, _ =>
      "[" ++ toString idx ++ "]" ++ renderSegments rest false

/-- `Display for JsonPath`: `users[0].email` style rendering. -/
def JsonPath.display (p : JsonPath) : String := renderSegments p.segments true

/-! ## Error model (src/error/schema_error.rs) -/

/-- A single validation error (`SchemaError` in src/error/schema_error.rs). -/
structure SchemaError where
  path : JsonPath
  message : String
  got : Option String
  expected : Option String
  code : String
  deriving DecidableEq, Repr

/-- `SchemaError::new`: code defaults to `validation_error`. -/
def SchemaError.new (path : JsonPath) (message : String) : SchemaError :=
  ⟨path, message, none, none, "validation_error"⟩

/-- `SchemaError::with_code`. -/
def SchemaError.with_code (e : SchemaError) (code : String) : SchemaError :=
  { e with code := code }

/-- `SchemaError::with_got`. -/
def SchemaError.with_got (e : SchemaError) (got : String) : SchemaError :=
  { e with got := some got }

/-- `SchemaError::with_expected`. -/
def SchemaError.with_expected (e : SchemaError) (expected : String) : SchemaError :=
  { e with expected := some expected }

/-- A non-empty collection of schema errors (`SchemaErrors` wraps the external
`stillwater` crate's `NonEmptyVec`, modelled as a list with a non-emptiness
invariant; `combine` is the `Semigroup` append from src/error/schema_error.rs). -/
structure SchemaErrors where
  toList : List SchemaError
  ne : toList ≠ []

theorem SchemaErrors.ext {a b : SchemaErrors} (h : a.toList = b.toList) : a = b := by
  cases a; cases b; simp_all

/-- `SchemaErrors::single`. -/
def SchemaErrors.single (e : SchemaError) : SchemaErrors := ⟨[e], by simp⟩

/-- `SchemaErrors::len`. -/
def SchemaErrors.len (es : SchemaErrors) : Nat := es.toList.length

/-- `Semigroup::combine for SchemaErrors`: appends the right operand's errors
after the left operand's (NonEmptyVec append). -/
def SchemaErrors.combine (a b : SchemaErrors) : SchemaErrors :=
  ⟨a.toList ++ b.toList, by
    intro h
    exact a.ne (List.append_eq_nil.mp h).1⟩

/-! ## Validation result algebra (external `stillwater` crate surface used by
the source: a two-variant accumulating result type). -/

/-- `Validation<T, E>`: `Success(value)` or `Failure(errors)`. -/
inductive Validation (α : Type) (ε : Type) where
  | success (v : α)
  | failure (e : ε)

/-- `Validation::is_success`. -/
def Validation.isSuccess : Validation α ε → Bool
  | .success _ => true
  | .failure _ => false

/-- `Validation::map`: transforms the success payload, failures untouched. -/
def Validation.map (f : α → β) : Validation α ε → Validation β ε
  | .success v => .success (f v)
  | .failure e => .failure e

/-- The list of errors carried by a validation result (empty on success). -/
def Validation.errors : Validation α SchemaErrors → List SchemaError
  | .success _ => []
  | .failure e => e.toList

/-- The `if errors.is_empty() { Success(ok) } else { Failure(from_vec(errors)) }`
pattern that ends every schema `validate` in the source. -/
def finishValidation (errs : List SchemaError) (ok : α) : Validation α SchemaErrors :=
  match errs with
  | [] => .success ok
  | e :: rest => .failure ⟨e :: rest, by simp⟩

/-! ## JSON values (the `serde_json::Value` surface the source validates).

`serde_json`'s `Number` stores either a `u64` (`posInt`), a negative `i64`
(`negInt`) or an `f64`; the float payload is abstracted since the source never
inspects it beyond classifying the number as a float. -/

/-- Models `serde_json::Number`. -/
inductive JNum where
  | posInt (n : Nat)
  | negInt (n : Int)
  | float
  deriving DecidableEq, Repr

/-- Maximum `i64` value. -/
def i64Max : Int := 2 ^ 63 - 1

/-- `Number::is_i64`. -/
def JNum.is_i64 : JNum → Bool
  | .posInt n => (n : Int) ≤ i64Max
  | .negInt _ => true
  | .float => false

/-- `Number::is_u64`. -/
def JNum.is_u64 : JNum → Bool
  | .posInt _ => true
  | _ => false

/-- `Number::as_i64` payload (meaningful when `is_i64`). -/
def JNum.as_i64 : JNum → Int
  | .posInt n => (n : Int)
  | .negInt n => n
  | .float => 0

/-- `Number::as_u64` payload (meaningful when `is_u64`). -/
def JNum.as_u64 : JNum → Nat
  | .posInt n => n
  | _ => 0

/-- `i64 -> Number` conversion (`n.into()` in the source). -/
def JNum.ofInt (n : Int) : JNum :=
  if 0 ≤ n then .posInt n.toNat else .negInt n

mutual
/-- Models `serde_json::Value`. -/
inductive Json where
  | null
  | bool (b : Bool)
  | num (n : JNum)
  | str (s : String)
  | arr (items : JsonList)
  | obj (entries : JsonObj)

/-- A JSON array's items. -/
inductive JsonList where
  | nil
  | cons (hd : Json) (tl : JsonList)

/-- A JSON object's key/value entries, in input order. -/
inductive JsonObj where
  | nil
  | cons (key : String) (val : Json) (tl : JsonObj)
end

/-- Converts a `JsonList` to a Lean list. -/
def JsonList.toList : JsonList → List Json
  | .nil => []
  | .cons hd tl => hd :: tl.toList

/-- Builds a `JsonList` from a Lean list. -/
def JsonList.ofList : List Json → JsonList
  | [] => .nil
  | hd :: tl => .cons hd (JsonList.ofList tl)

/-- Converts a `JsonObj` to a Lean association list. -/
def JsonObj.toPairs : JsonObj → List (String × Json)
  | .nil => []
  | .cons k v tl => (k, v) :: tl.toPairs

/-- Builds a `JsonObj` from a Lean association list. -/
def JsonObj.ofPairs : List (String × Json) → JsonObj
  | [] => .nil
  | (k, v) :: tl => .cons k v (JsonObj.ofPairs tl)

/-- `Map::get` on a JSON object: first entry with the given key. -/
def JsonObj.get : JsonObj → String → Option Json
  | .nil, _ => none
  | .cons k v tl, name => if k = name then some v else tl.get name

/-- `value_type_name` (duplicated in object.rs, numeric.rs, string.rs, array.rs). -/
def value_type_name : Json → String
  | .null => "null"
  | .bool _ => "boolean"
  | .num _ => "number"
  | .str _ => "string"
  | .arr _ => "array"
  | .obj _ => "object"

/-- `Value::is_null`. -/
def Json.is_null : Json → Bool
  | .null => true
  | _ => false

/-- Whether the value is a `Value::Number`. -/
def Json.isNumber : Json → Bool
  | .num _ => true
  | _ => false

/-! ## String schema (src/schema/string.rs)

The compiled regex inside the `Pattern` constraint is modelled as a Lean
predicate `String → Bool` (the `regex` crate is external to this repository);
the pattern text is kept alongside it for error messages, exactly as the
source keeps `pattern_str` next to the compiled `Regex`. -/

/-- Format validator types (`Format` in src/schema/string.rs). -/
inductive Format where
  | email
  | url
  | uuid
  | date
  | dateTime
  | ip
  | ipv4
  | ipv6
  deriving DecidableEq, Repr

/-- String transformation types (`Transform` in src/schema/string.rs). -/
inductive Transform where
  | trim
  | lowercase
  deriving DecidableEq, Repr

/-- A constraint applied to string values (`StringConstraint`). -/
inductive StringConstraint where
  | minLength (min : Nat) (message : Option String)
  | maxLength (max : Nat) (message : Option String)
  | patternC (matcher : String → Bool) (patternStr : String) (message : Option String)
  | formatC (format : Format) (message : Option String)
  | oneOfC (values : List String) (message : Option String)
  | startsWith (pre : String) (message : Option String)
  | endsWith (suf : String) (message : Option String)
  | containsC (substring : String) (message : Option String)

/-- Whether a character is a hexadecimal digit (used by the uuid/ipv6 checks). -/
def isHexChar (c : Char) : Bool :=
  c.isDigit || (Char.ofNat 97 ≤ c && c ≤ Char.ofNat 102) ||
    (Char.ofNat 65 ≤ c && c ≤ Char.ofNat 70)

/-- `validate_email`: the regex `[^ws@]+@[^ws@]+.[^ws@]+` anchored at both
ends, i.e. exactly one at-sign, a non-empty local part, and a domain that
contains an interior dot; no whitespace anywhere. -/
def validate_email (s : String) : Bool :=
  match s.splitOn "@" with
  | [local_, domain] =>
      !local_.isEmpty && local_.all (fun c => !c.isWhitespace) &&
      domain.all (fun c => !c.isWhitespace) &&
      (domain.toList.drop 1).dropLast.contains (Char.ofNat 46)
  | _ => false

/-- `validate_url`: http/https prefix check. -/
def validate_url (s : String) : Bool :=
  s.startsWith "http://" || s.startsWith "https://"

/-- `validate_uuid`: 8-4-4-4-12 groups of hex digits separated by dashes. -/
def validate_uuid (s : String) : Bool :=
  match s.splitOn "-" with
  | [a, b, c, d, e] =>
      a.length == 8 && b.length == 4 && c.length == 4 && d.length == 4 &&
      e.length == 12 && a.all isHexChar && b.all isHexChar && c.all isHexChar &&
      d.all isHexChar && e.all isHexChar
  | _ => false

/-- `validate_date`: `YYYY-MM-DD` shape plus the source's range checks on the
parsed year, month and day. -/
def validate_date (s : String) : Bool :=
  match s.splitOn "-" with
  | [y, m, d] =>
      y.length == 4 && m.length == 2 && d.length == 2 &&
      y.all Char.isDigit && m.all Char.isDigit && d.all Char.isDigit &&
      (1000 ≤ y.toNat! && y.toNat! ≤ 9999) &&
      (1 ≤ m.toNat! && m.toNat! ≤ 12) &&
      (1 ≤ d.toNat! && d.toNat! ≤ 31)
  | _ => false

/-- Character-class check used by `validate_datetime`: position `i` of the
`YYYY-MM-DDTHH:MM:SS` template. -/
def datetimeCharOk (i : Nat) (c : Char) : Bool :=
  if i == 4 || i == 7 then c == Char.ofNat 45
  else if i == 10 then c == Char.ofNat 84
  else if i == 13 || i == 16 then c == Char.ofNat 58
  else c.isDigit

/-- `validate_datetime`: the regex is anchored only at the start, so the first
19 characters must follow the ISO 8601 date-time template. -/
def validate_datetime (s : String) : Bool :=
  s.length ≥ 19 &&
    ((s.toList.take 19).enum.all fun p => datetimeCharOk p.1 p.2)

/-- `u8::from_str` as used by `validate_ipv4`: an optional plus sign followed
by one or more digits, with the value in `0..=255`. -/
def parseU8Ok (s : String) : Bool :=
  let digits := if s.startsWith "+" then s.drop 1 else s
  !digits.isEmpty && digits.all Char.isDigit && digits.toNat! ≤ 255

/-- `validate_ipv4`: four dot-separated parts, each parsing as a `u8`. -/
def validate_ipv4 (s : String) : Bool :=
  match s.splitOn "." with
  | [a, b, c, d] => parseU8Ok a && parseU8Ok b && parseU8Ok c && parseU8Ok d
  | _ => false

/-- A group of at most four hex digits (the `[hex]{0,4}` atom of the ipv6
regex). -/
def hexGroupOk (s : String) : Bool := s.length ≤ 4 && s.all isHexChar

/-- `validate_ipv6`: translation of the source regex's three alternatives over
the colon-separated groups — a full 8-group address, the `::`/`::1`
shorthands, or an address with one embedded `::` gap with at most 6 groups on
either side. -/
def validate_ipv6 (s : String) : Bool :=
  let parts := s.splitOn ":"
  (parts.length == 8 && parts.all hexGroupOk) ||
  s == "::" || s == "::1" ||
  (parts.all hexGroupOk &&
    (List.range parts.length).any fun i =>
      i ≤ 6 && parts.getD i " " == "" && parts.length ≤ i + 8)

/-- `validate_ip`: IPv4 or IPv6. -/
def validate_ip (s : String) : Bool := validate_ipv4 s || validate_ipv6 s

/-- The `(is_valid, format_name, code)` triple computed inside
`check_constraint`'s `Format` arm. -/
def Format.check (f : Format) (value : String) : Bool × String × String :=
  match f with
  | .email => (validate_email value, "valid email", "invalid_email")
  | .url => (validate_url value, "valid URL", "invalid_url")
  | .uuid => (validate_uuid value, "valid UUID", "invalid_uuid")
  | .date => (validate_date value, "valid date (YYYY-MM-DD)", "invalid_date")
  | .dateTime => (validate_datetime value, "valid ISO 8601 datetime", "invalid_datetime")
  | .ip => (validate_ip value, "valid IP address", "invalid_ip")
  | .ipv4 => (validate_ipv4 value, "valid IPv4 address", "invalid_ipv4")
  | .ipv6 => (validate_ipv6 value, "valid IPv6 address", "invalid_ipv6")

/-- `check_constraint` (src/schema/string.rs): checks a single constraint and
returns an error if it fails. -/
def StringConstraint.check (constraint : StringConstraint) (value : String)
    (path : JsonPath) : Option SchemaError :=
  match constraint with
  | .minLength min message =>
      let len := value.length
      if len < min then
        let msg := message.getD
          ("length must be at least " ++ toString min ++ ", got " ++ toString len)
        some (((SchemaError.new path msg).with_code "min_length").with_expected
          ("at least " ++ toString min ++ " characters") |>.with_got
          (toString len ++ " characters"))
      else none
  | .maxLength max message =>
      let len := value.length
      if len > max then
        let msg := message.getD
          ("length must be at most " ++ toString max ++ ", got " ++ toString len)
        some (((SchemaError.new path msg).with_code "max_length").with_expected
          ("at most " ++ toString max ++ " characters") |>.with_got
          (toString len ++ " characters"))
      else none
  | .patternC matcher patternStr message =>
      if !matcher value then
        let msg := message.getD
          ("must match pattern " ++ squote ++ patternStr ++ squote)
        some (((SchemaError.new path msg).with_code "pattern").with_expected
          ("string matching " ++ squote ++ patternStr ++ squote) |>.with_got value)
      else none
  | .formatC format message =>
      let r := format.check value
      if !r.1 then
        let msg := message.getD ("must be " ++ r.2.1)
        some (((SchemaError.new path msg).with_code r.2.2).with_expected
          r.2.1 |>.with_got value)
      else none
  | .oneOfC values message =>
      if !values.contains value then
        let msg := message.getD ("must be one of: " ++ String.intercalate ", " values)
        some (((SchemaError.new path msg).with_code "invalid_enum").with_expected
          ("one of: " ++ String.intercalate ", " values) |>.with_got value)
      else none
  | .startsWith pre message =>
      if !value.startsWith pre then
        let msg := message.getD ("must start with " ++ squote ++ pre ++ squote)
        some (((SchemaError.new path msg).with_code "invalid_prefix").with_expected
          ("string starting with " ++ squote ++ pre ++ squote) |>.with_got value)
      else none
  | .endsWith suf message =>
      if !value.endsWith suf then
        let msg := message.getD ("must end with " ++ squote ++ suf ++ squote)
        some (((SchemaError.new path msg).with_code "invalid_suffix").with_expected
          ("string ending with " ++ squote ++ suf ++ squote) |>.with_got value)
      else none
  | .containsC substring message =>
      if !(value.containsSubstr substring.toSubstring) then
        let msg := message.getD ("must contain " ++ squote ++ substring ++ squote)
        some (((SchemaError.new path msg).with_code "invalid_substring").with_expected
          ("string containing " ++ squote ++ substring ++ squote) |>.with_got value)
      else none

/-- A custom string validator (`CustomValidator` in src/schema/string.rs). -/
def CustomStringValidator := String → JsonPath → Validation Unit SchemaErrors

/-- A schema for validating string values (`StringSchema`). -/
structure StringSchema where
  constraints : List StringConstraint
  transforms : List Transform
  custom_validators : List CustomStringValidator
  type_error_message : Option String

/-- `StringSchema::new`. -/
def StringSchema.new : StringSchema := ⟨[], [], [], none⟩

/-- `StringSchema::min_len`. -/
def StringSchema.min_len (s : StringSchema) (min : Nat) : StringSchema :=
  { s with constraints := s.constraints ++ [.minLength min none] }

/-- `StringSchema::pattern` with the compiled regex given as a predicate
(`Regex::new` cannot fail in the model, so the `Result` wrapper is dropped). -/
def StringSchema.patternWith (s : StringSchema) (matcher : String → Bool)
    (patternStr : String) : StringSchema :=
  { s with constraints := s.constraints ++ [.patternC matcher patternStr none] }

/-- One `Transform` application from the transform loop in
`StringSchema::validate`. -/
def Transform.apply (t : Transform) (s : String) : String :=
  match t with
  | .trim => s.trim
  | .lowercase => s.toLower

/-- The transform loop of `StringSchema::validate`. -/
def applyTransforms (ts : List Transform) (s : String) : String :=
  ts.foldl (fun acc t => t.apply acc) s

/-- The errors contributed by a `Validation<(), SchemaErrors>` result. -/
def unitErrors : Validation Unit SchemaErrors → List SchemaError
  | .success _ => []
  | .failure e => e.toList

/-- `StringSchema::validate` (src/schema/string.rs lines 392-441). -/
def StringSchema.validate (sch : StringSchema) (value : Json) (path : JsonPath) :
    Validation String SchemaErrors :=
  match value with
  | .str s =>
      let transformed := applyTransforms sch.transforms s
      let errs := sch.constraints.filterMap (fun c => c.check transformed path)
      let errs := errs ++ sch.custom_validators.flatMap
        (fun v => unitErrors (v transformed path))
      finishValidation errs transformed
  | v =>
      let message := sch.type_error_message.getD "expected string"
      .failure (SchemaErrors.single
        (((SchemaError.new path message).with_code "invalid_type").with_got
          (value_type_name v) |>.with_expected "string"))

/-! ## Integer schema (src/schema/numeric.rs) -/

/-- A constraint applied to integer values (`IntegerConstraint`). -/
inductive IntegerConstraint where
  | min (value : Int) (message : Option String)
  | max (value : Int) (message : Option String)
  | positive (message : Option String)
  | nonNegative (message : Option String)
  | negative (message : Option String)
  deriving DecidableEq, Repr

/-- `check_constraint` (src/schema/numeric.rs). -/
def IntegerConstraint.check (constraint : IntegerConstraint) (value : Int)
    (path : JsonPath) : Option SchemaError :=
  match constraint with
  | .min minV message =>
      if value < minV then
        let msg := message.getD
          ("must be at least " ++ toString minV ++ ", got " ++ toString value)
        some (((SchemaError.new path msg).with_code "min_value").with_expected
          ("at least " ++ toString minV) |>.with_got (toString value))
      else none
  | .max maxV message =>
      if value > maxV then
        let msg := message.getD
          ("must be at most " ++ toString maxV ++ ", got " ++ toString value)
        some (((SchemaError.new path msg).with_code "max_value").with_expected
          ("at most " ++ toString maxV) |>.with_got (toString value))
      else none
  | .positive message =>
      if value ≤ 0 then
        let msg := message.getD ("must be positive, got " ++ toString value)
        some (((SchemaError.new path msg).with_code "positive").with_expected
          "value > 0" |>.with_got (toString value))
      else none
  | .nonNegative message =>
      if value < 0 then
        let msg := message.getD ("must be non-negative, got " ++ toString value)
        some (((SchemaError.new path msg).with_code "non_negative").with_expected
          "value >= 0" |>.with_got (toString value))
      else none
  | .negative message =>
      if value ≥ 0 then
        let msg := message.getD ("must be negative, got " ++ toString value)
        some (((SchemaError.new path msg).with_code "negative").with_expected
          "value < 0" |>.with_got (toString value))
      else none

/-- A schema for validating integer values (`IntegerSchema`). -/
structure IntegerSchema where
  constraints : List IntegerConstraint
  type_error_message : Option String
  deriving Repr

/-- `IntegerSchema::new`. -/
def IntegerSchema.new : IntegerSchema := ⟨[], none⟩

/-- `IntegerSchema::min`. -/
def IntegerSchema.min (s : IntegerSchema) (value : Int) : IntegerSchema :=
  { s with constraints := s.constraints ++ [.min value none] }

/-- `IntegerSchema::positive`. -/
def IntegerSchema.positive (s : IntegerSchema) : IntegerSchema :=
  { s with constraints := s.constraints ++ [.positive none] }

/-- The constraint-checking tail of `IntegerSchema::validate`, run once the
value is known to be an in-range integer. -/
def IntegerSchema.runConstraints (sch : IntegerSchema) (n : Int) (path : JsonPath) :
    Validation Int SchemaErrors :=
  finishValidation (sch.constraints.filterMap (fun c => c.check n path)) n

/-- `IntegerSchema::validate` (src/schema/numeric.rs lines 273-335): the match
over `serde_json::Number` with `is_i64` / `is_u64` guards, the float branch,
and the `u64`-overflow branch. -/
def IntegerSchema.validate (sch : IntegerSchema) (value : Json) (path : JsonPath) :
    Validation Int SchemaErrors :=
  match value with
  | .num num =>
      if num.is_i64 then sch.runConstraints num.as_i64 path
      else if num.is_u64 then
        let u := num.as_u64
        if (u : Int) ≤ i64Max then sch.runConstraints (u : Int) path
        else
          let message := sch.type_error_message.getD "integer value too large for i64"
          .failure (SchemaErrors.single
            (((SchemaError.new path message).with_code "overflow").with_got
              (toString u) |>.with_expected "integer in i64 range"))
      else
        let message := sch.type_error_message.getD "expected integer, got float"
        .failure (SchemaErrors.single
          (((SchemaError.new path message).with_code "invalid_type").with_got
            "float" |>.with_expected "integer"))
  | v =>
      let message := sch.type_error_message.getD "expected integer"
      .failure (SchemaErrors.single
        (((SchemaError.new path message).with_code "invalid_type").with_got
          (value_type_name v) |>.with_expected "integer"))

/-! ## Combinators (src/schema/combinators.rs)

A type-erased validator (`ValidatorFn` / `Arc<dyn ValueValidator>` applied at
the `Value` level) is embedded as a function value. -/

/-- `ValidatorFn`: a type-erased validation function. -/
def ValidatorFn := Json → JsonPath → Validation Json SchemaErrors

/-- Renders a list of indices the way `format!("{:?}")` renders `Vec<usize>`. -/
def debugIndexList (l : List Nat) : String :=
  "[" ++ String.intercalate ", " (l.map toString) ++ "]"

/-- `CombinatorSchema::validate_one_of`: run every component, count successes,
succeed on exactly one match and fail with a single tagged error otherwise.
The single-success arm destructures the stored result; its impossible
failure sub-case (`unreachable!` in the source, since the list was filtered on
`is_success`) conservatively returns the input value. -/
def validate_one_of (schemas : List ValidatorFn) (value : Json) (path : JsonPath) :
    Validation Json SchemaErrors :=
  let results := schemas.enum.map (fun p => (p.1, p.2 value path))
  let valid := results.filter (fun p => p.2.isSuccess)
  match valid with
  | [] =>
      .failure (SchemaErrors.single
        ((SchemaError.new path
          ("value did not match any of " ++ toString schemas.length ++
            " schemas")).with_code "one_of_none_matched"))
  | [(_, r)] =>
      match r with
      | .success v => .success v
      | .failure _ => .success value
  | vs =>
      .failure (SchemaErrors.single
        ((SchemaError.new path
          ("value matched " ++ toString vs.length ++ " schemas (indices " ++
            debugIndexList (vs.map (fun p => p.1)) ++
            "), expected exactly one")).with_code "one_of_multiple_matched"))

/-- The for-loop of `validate_any_of`: returns the first success, or `none`
when every component fails. -/
def anyOfFirstSuccess (value : Json) (path : JsonPath) :
    List ValidatorFn → Option Json
  | [] => none
  | f :: rest =>
      match f value path with
      | .success v => some v
      | .failure _ => anyOfFirstSuccess value path rest

/-- `CombinatorSchema::validate_any_of`: run components in order,
short-circuiting on the first success; only when none match is a single
`any_of_none_matched` error produced. -/
def validate_any_of (schemas : List ValidatorFn) (value : Json) (path : JsonPath) :
    Validation Json SchemaErrors :=
  match anyOfFirstSuccess value path schemas with
  | some v => .success v
  | none =>
      .failure (SchemaErrors.single
        ((SchemaError.new path
          ("value did not match any of " ++ toString schemas.length ++
            " schemas")).with_code "any_of_none_matched"))

/-- `CombinatorSchema::validate_all_of`: run every component unconditionally,
merge all failures; on full success return the last success's value, falling
back to a clone of the input when there were no components. -/
def validate_all_of (schemas : List ValidatorFn) (value : Json) (path : JsonPath) :
    Validation Json SchemaErrors :=
  let acc := schemas.foldl
    (fun (acc : List SchemaError × Option Json) f =>
      match f value path with
      | .success v => (acc.1, some v)
      | .failure e => (acc.1 ++ e.toList, acc.2))
    ([], none)
  match acc.1 with
  | [] => .success (acc.2.getD value)
  | e :: rest => .failure ⟨e :: rest, by simp⟩

/-- `CombinatorSchema::validate_optional`: null passes immediately, anything
else is delegated to the wrapped validator. -/
def validate_optional (inner : ValidatorFn) (value : Json) (path : JsonPath) :
    Validation Json SchemaErrors :=
  if value.is_null then .success Json.null else inner value path

/-! ## Array schema (src/schema/array.rs)

The item schema (`S: SchemaLike` used through `validate_to_value`) and the
`unique_by` key-extraction closure are embedded as function values. -/

/-- A constraint applied to array values (`ArrayConstraint`). -/
inductive ArrayConstraint where
  | minLength (min : Nat) (message : Option String)
  | maxLength (max : Nat) (message : Option String)
  | unique (message : Option String)
  | uniqueBy (keyFn : Json → Json) (message : Option String)

/-- JSON serialization of a value (`serde_json::to_string`), used as the
grouping key in `find_duplicates`.  Floats serialize as a fixed placeholder
because their payload is abstracted away in `JNum`. -/
def jsonSerialize : Json → String
  | .null => "null"
  | .bool b => if b then "true" else "false"
  | .num (.posInt n) => toString n
  | .num (.negInt n) => toString n
  | .num .float => "<float>"
  | .str s => serializeString s
  | .arr items => "[" ++ String.intercalate "," (serializeList items) ++ "]"
  | .obj entries =>
      String.singleton (Char.ofNat 123) ++
        String.intercalate "," (serializeObj entries) ++
        String.singleton (Char.ofNat 125)
where
  /-- JSON string escaping (quote, backslash and the common control chars). -/
  serializeString (s : String) : String :=
    let q := String.singleton (Char.ofNat 34)
    let esc := s.toList.foldl
      (fun acc c =>
        if c = Char.ofNat 34 then acc ++ String.singleton (Char.ofNat 92) ++ q
        else if c = Char.ofNat 92 then
          acc ++ String.singleton (Char.ofNat 92) ++ String.singleton (Char.ofNat 92)
        else if c = Char.ofNat 10 then acc ++ String.singleton (Char.ofNat 92) ++ "n"
        else if c = Char.ofNat 13 then acc ++ String.singleton (Char.ofNat 92) ++ "r"
        else if c = Char.ofNat 9 then acc ++ String.singleton (Char.ofNat 92) ++ "t"
        else acc.push c)
      ""
    q ++ esc ++ q
  serializeList : JsonList → List String
    | .nil => []
    | .cons hd tl => jsonSerialize hd :: serializeList tl
  serializeObj : JsonObj → List String
    | .nil => []
    | .cons k v tl =>
        (serializeString k ++ ":" ++ jsonSerialize v) :: serializeObj tl

/-- Appends an index to the group stored under a key, creating the group when
absent (`seen.entry(key_str).or_default().push(i)`). -/
def pushEntry (key : String) (i : Nat) :
    List (String × List Nat) → List (String × List Nat)
  | [] => [(key, [i])]
  | (k, is) :: rest =>
      if k = key then (k, is ++ [i]) :: rest else (k, is) :: pushEntry key i rest

/-- `find_duplicates` (src/schema/array.rs lines 501-514): groups indices by
the JSON-serialized form of each item's key.  The source accumulates into a
`HashMap` whose iteration order is unspecified; the model keeps groups in
first-occurrence order, a determinization that the theorems below do not rely
on beyond group membership. -/
def find_duplicates (arr : List Json) (keyFn : Json → Json) :
    List (String × List Nat) :=
  (arr.enum).foldl
    (fun seen p => pushEntry (jsonSerialize (keyFn p.2)) p.1 seen) []

/-- The `unique` error emitted for one duplicated group. -/
def uniqueErrorOf (word : String) (path : JsonPath) (message : Option String)
    (indices : List Nat) : SchemaError :=
  let msg := message.getD
    ("duplicate " ++ word ++ " at indices " ++ debugIndexList indices)
  ((SchemaError.new path msg).with_code "unique").with_got
    ("duplicates at indices " ++ debugIndexList indices)

/-- The errors produced by one uniqueness constraint: one `unique` error per
group with more than one member (the `for indices in duplicates.values()`
loop, with the loop's appends phrased as a flat map). -/
def uniqueErrors (word : String) (path : JsonPath) (message : Option String)
    (dups : List (String × List Nat)) : List SchemaError :=
  dups.flatMap
    (fun g => if g.2.length > 1 then [uniqueErrorOf word path message g.2] else [])

/-- The errors one constraint contributes in the length-constraint pass of
`ArraySchema::validate` (`Unique`/`UniqueBy` fall through the first loop). -/
def lengthConstraintErrors (len : Nat) (path : JsonPath) :
    ArrayConstraint → List SchemaError
  | .minLength min message =>
      if len < min then
        let msg := message.getD
          ("array must have at least " ++ toString min ++ " items, got " ++
            toString len)
        [((SchemaError.new path msg).with_code "min_length").with_expected
          ("at least " ++ toString min ++ " items") |>.with_got
          (toString len ++ " items")]
      else []
  | .maxLength max message =>
      if len > max then
        let msg := message.getD
          ("array must have at most " ++ toString max ++ " items, got " ++
            toString len)
        [((SchemaError.new path msg).with_code "max_length").with_expected
          ("at most " ++ toString max ++ " items") |>.with_got
          (toString len ++ " items")]
      else []
  | _ => []

/-- The length-constraint pass of `ArraySchema::validate` (the first loop over
constraints, with the loop's appends phrased as a flat map). -/
def arrayLengthErrors (constraints : List ArrayConstraint) (len : Nat)
    (path : JsonPath) : List SchemaError :=
  constraints.flatMap (lengthConstraintErrors len path)

/-- The item-validation loop of `ArraySchema::validate`: validates every item
at an index-suffixed path, collecting validated values and errors. -/
def validateArrayItems (itemF : ValidatorFn) (path : JsonPath) :
    List Json → Nat → List Json × List SchemaError
  | [], _ => ([], [])
  | item :: rest, index =>
      let r := itemF item (path.push_index index)
      let tail := validateArrayItems itemF path rest (index + 1)
      match r with
      | .success v => (v :: tail.1, tail.2)
      | .failure e => (tail.1, e.toList ++ tail.2)

/-- The errors one constraint contributes in the uniqueness pass. -/
def uniqueConstraintErrors (arr : List Json) (path : JsonPath) :
    ArrayConstraint → List SchemaError
  | .unique message =>
      uniqueErrors "value" path message (find_duplicates arr (fun v => v))
  | .uniqueBy keyFn message =>
      uniqueErrors "key" path message (find_duplicates arr keyFn)
  | _ => []

/-- The uniqueness pass of `ArraySchema::validate` (the second loop over
constraints, run on the raw input items, with the loop's appends phrased as a
flat map). -/
def arrayUniqueErrors (constraints : List ArrayConstraint) (arr : List Json)
    (path : JsonPath) : List SchemaError :=
  constraints.flatMap (uniqueConstraintErrors arr path)

/-- A schema for validating array values (`ArraySchema`), with the item schema
embedded as a type-erased validation function. -/
structure ArraySchema where
  item_schema : ValidatorFn
  constraints : List ArrayConstraint
  type_error_message : Option String

/-- `ArraySchema::validate` (src/schema/array.rs lines 245-357): type-check,
length constraints on the raw length, item validation at index-suffixed paths,
then uniqueness constraints over the raw items. -/
def ArraySchema.validate (sch : ArraySchema) (value : Json) (path : JsonPath) :
    Validation (List Json) SchemaErrors :=
  match value with
  | .arr items =>
      let arr := items.toList
      let lenErrs := arrayLengthErrors sch.constraints arr.length path
      let itemRes := validateArrayItems sch.item_schema path arr 0
      let uniqErrs := arrayUniqueErrors sch.constraints arr path
      finishValidation (lenErrs ++ itemRes.2 ++ uniqErrs) itemRes.1
  | v =>
      let message := sch.type_error_message.getD "expected array"
      .failure (SchemaErrors.single
        (((SchemaError.new path message).with_code "invalid_type").with_got
          (value_type_name v) |>.with_expected "array"))

/-! ## Object schema (src/schema/object.rs)

Field schemas (`Box<dyn SchemaLike<Output = Value>>`) are embedded as
function values; the `IndexMap` of field definitions becomes an ordered
association list, and the validated `Map<String, Value>` output becomes an
insertion-ordered association list. -/

/-- An object that has passed field-level validation (`ValidatedObject`),
giving cross-field validators keyed access to the validated values. -/
structure ValidatedObject where
  fields : List (String × Json)

/-- `ValidatedObject::get`. -/
def ValidatedObject.get (o : ValidatedObject) (field : String) : Option Json :=
  (o.fields.find? (fun kv => kv.1 = field)).map (fun kv => kv.2)

/-- `ValidatedObject::has`: false for both missing fields and explicit null. -/
def ValidatedObject.has (o : ValidatedObject) (field : String) : Bool :=
  match o.get field with
  | some v => !v.is_null
  | none => false

/-- A cross-field validator (`CrossFieldValidator`). -/
def CrossFieldValidator := ValidatedObject → JsonPath → Validation Unit SchemaErrors

/-- Definition of a field within an object schema (`FieldDef`). -/
structure FieldDef where
  schema : ValidatorFn
  required : Bool
  dflt : Option Json

/-- How to handle properties not defined in the schema (`AdditionalProperties`). -/
inductive AdditionalProps where
  | allow
  | deny
  | validateWith (schema : ValidatorFn)

/-- A schema for validating JSON objects (`ObjectSchema`). -/
structure ObjectSchema where
  fields : List (String × FieldDef)
  additional_properties : AdditionalProps
  type_error_message : Option String
  cross_field_validators : List CrossFieldValidator
  skip_on_field_errors : Bool

/-- `ObjectSchema::new`. -/
def ObjectSchema.new : ObjectSchema := ⟨[], .allow, none, [], true⟩

/-- `Map::insert` on the validated output map, modelled as an in-place update
of an existing key or an append of a new one. -/
def mapInsert (m : List (String × Json)) (key : String) (v : Json) :
    List (String × Json) :=
  match m with
  | [] => [(key, v)]
  | (k, w) :: rest =>
      if k = key then (k, v) :: rest else (k, w) :: mapInsert rest key v

/-- Whether a key is among the declared field names
(`self.fields.contains_key`). -/
def fieldsContain (fields : List (String × FieldDef)) (key : String) : Bool :=
  fields.any (fun kv => kv.1 = key)

/-- The declared-fields loop of `ObjectSchema::validate`: validates present
fields, reports missing required ones, inserts defaults for missing optional
ones; threads the accumulated errors and validated map. -/
def validateDeclaredFields (obj : JsonObj) (path : JsonPath) :
    List (String × FieldDef) → List SchemaError × List (String × Json) →
    List SchemaError × List (String × Json)
  | [], acc => acc
  | (name, fd) :: rest, acc =>
      let field_path := path.push_field name
      let acc2 :=
        match obj.get name with
        | some field_value =>
            match fd.schema field_value field_path with
            | .success v => (acc.1, mapInsert acc.2 name v)
            | .failure e => (acc.1 ++ e.toList, acc.2)
        | none =>
            if fd.required then
              (acc.1 ++ [((SchemaError.new field_path
                ("required field " ++ squote ++ name ++ squote ++
                  " is missing")).with_code "required").with_expected "value"],
               acc.2)
            else
              match fd.dflt with
              | some d => (acc.1, mapInsert acc.2 name d)
              | none => acc
      validateDeclaredFields obj path rest acc2

/-- The additional-properties loop of `ObjectSchema::validate`: every input
key not among the declared fields is passed through, rejected, or validated
against the side schema. -/
def validateAdditionalProps (fields : List (String × FieldDef))
    (addl : AdditionalProps) (path : JsonPath) :
    JsonObj → List SchemaError × List (String × Json) →
    List SchemaError × List (String × Json)
  | .nil, acc => acc
  | .cons key v rest, acc =>
      let acc2 :=
        if fieldsContain fields key then acc
        else
          let field_path := path.push_field key
          match addl with
          | .allow => (acc.1, mapInsert acc.2 key v)
          | .deny =>
              (acc.1 ++ [((SchemaError.new field_path
                ("unknown field " ++ squote ++ key ++ squote)).with_code
                  "additional_property")], acc.2)
          | .validateWith schemaF =>
              match schemaF v field_path with
              | .success w => (acc.1, mapInsert acc.2 key w)
              | .failure e => (acc.1 ++ e.toList, acc.2)
      validateAdditionalProps fields addl path rest acc2

/-- The cross-field pass of `ObjectSchema::validate`: runs every validator in
order over the validated object, appending any returned errors. -/
def runCrossFieldValidators (validators : List CrossFieldValidator)
    (obj : ValidatedObject) (path : JsonPath) : List SchemaError :=
  validators.foldl (fun errs v => errs ++ unitErrors (v obj path)) []

/-- `ObjectSchema::validate` (src/schema/object.rs lines 627-736). -/
def ObjectSchema.validate (sch : ObjectSchema) (value : Json) (path : JsonPath) :
    Validation (List (String × Json)) SchemaErrors :=
  match value with
  | .obj obj =>
      let acc := validateDeclaredFields obj path sch.fields ([], [])
      let acc := validateAdditionalProps sch.fields sch.additional_properties
        path obj acc
      let errs :=
        if !sch.skip_on_field_errors || acc.1.isEmpty then
          acc.1 ++ runCrossFieldValidators sch.cross_field_validators
            ⟨acc.2⟩ path
        else acc.1
      finishValidation errs acc.2
  | v =>
      let message := sch.type_error_message.getD "expected object"
      .failure (SchemaErrors.single
        (((SchemaError.new path message).with_code "invalid_type").with_got
          (value_type_name v) |>.with_expected "object"))

/-! ## Schema references (src/schema/ref_schema.rs) -/

/-- A schema that references another schema by name (`RefSchema`). -/
structure RefSchema where
  name : String

/-- `SchemaLike::validate for RefSchema`: without a registry a reference
always fails with `missing_registry`. -/
def RefSchema.validate (sch : RefSchema) (_value : Json) (path : JsonPath) :
    Validation Json SchemaErrors :=
  .failure (SchemaErrors.single
    ((SchemaError.new path
      ("reference to " ++ squote ++ sch.name ++ squote ++
        " cannot be validated without a registry. Use SchemaRegistry::validate() instead")).with_code
      "missing_registry"))

/-! ## The schema graph and its interpreters

The registry stores heterogeneous `Arc<dyn ValueValidator>` values; the
concrete schema kinds of the crate are represented by a deep `Schema` type,
and the two trait dispatch paths (`validate_to_value` and
`validate_to_value_with_context`) become the two interpreters below.  Both
object cases go through the *default* trait methods, because
`impl SchemaLike for ObjectSchema` (src/schema/object.rs lines 745-755)
overrides neither `validate_with_context` nor `collect_refs`. -/

mutual
/-- A concrete schema value of the crate. -/
inductive Schema where
  | strS (constraints : List StringConstraint) (transforms : List Transform)
      (customs : List CustomStringValidator) (typeErr : Option String)
  | intS (constraints : List IntegerConstraint) (typeErr : Option String)
  | objS (fields : FieldList) (addl : AdditionalDeep) (typeErr : Option String)
      (cross : List CrossFieldValidator) (skipOnFieldErrors : Bool)
  | arrS (item : Schema) (constraints : List ArrayConstraint)
      (typeErr : Option String)
  | oneOfS (children : SchemaList)
  | anyOfS (children : SchemaList)
  | allOfS (children : SchemaList)
  | optionalS (inner : Schema)
  | refS (name : String)

/-- Ordered field definitions of an object schema (the `IndexMap` of
`FieldDef`s). -/
inductive FieldList where
  | nil
  | cons (name : String) (fieldSchema : Schema) (required : Bool)
      (dflt : Option Json) (tl : FieldList)

/-- The children of a combinator. -/
inductive SchemaList where
  | nil
  | cons (hd : Schema) (tl : SchemaList)

/-- Deep counterpart of `AdditionalProperties`. -/
inductive AdditionalDeep where
  | allow
  | deny
  | validateWith (schema : Schema)
end

/-- `FieldList` from a Lean list. -/
def FieldList.ofList : List (String × Schema × Bool × Option Json) → FieldList
  | [] => .nil
  | (n, s, r, d) :: tl => .cons n s r d (FieldList.ofList tl)

mutual
/-- `ValueValidator::validate_value` / `SchemaLike::validate_to_value` for a
concrete schema: dispatches to the concrete validate of each kind and
normalizes the output to a JSON value. -/
def interpNoCtx : Schema → ValidatorFn
  | .strS cs ts customs te => fun v p =>
      (StringSchema.validate ⟨cs, ts, customs, te⟩ v p).map Json.str
  | .intS cs te => fun v p =>
      (IntegerSchema.validate ⟨cs, te⟩ v p).map (fun n => Json.num (JNum.ofInt n))
  | .objS fields addl te cross skip => fun v p =>
      (ObjectSchema.validate
        ⟨interpFields fields, interpAddl addl, te, cross, skip⟩ v p).map
        (fun m => Json.obj (JsonObj.ofPairs m))
  | .arrS item cs te => fun v p =>
      (ArraySchema.validate ⟨interpNoCtx item, cs, te⟩ v p).map
        (fun l => Json.arr (JsonList.ofList l))
  | .oneOfS children => fun v p => validate_one_of (interpChildren children) v p
  | .anyOfS children => fun v p => validate_any_of (interpChildren children) v p
  | .allOfS children => fun v p => validate_all_of (interpChildren children) v p
  | .optionalS inner => fun v p => validate_optional (interpNoCtx inner) v p
  | .refS name => fun v p => RefSchema.validate ⟨name⟩ v p

/-- Interprets the ordered field definitions into the shallow `FieldDef`s. -/
def interpFields : FieldList → List (String × FieldDef)
  | .nil => []
  | .cons n s r d tl => (n, ⟨interpNoCtx s, r, d⟩) :: interpFields tl

/-- Interprets combinator children into type-erased validators. -/
def interpChildren : SchemaList → List ValidatorFn
  | .nil => []
  | .cons hd tl => interpNoCtx hd :: interpChildren tl

/-- Interprets the additional-properties policy. -/
def interpAddl : AdditionalDeep → AdditionalProps
  | .allow => .allow
  | .deny => .deny
  | .validateWith s => .validateWith (interpNoCtx s)
end

mutual
/-- `SchemaLike::collect_refs` as implemented (or, for schemas that do not
override it, defaulted) by each kind: `RefSchema` pushes its name, array and
combinator schemas delegate to their children, and `ObjectSchema` inherits
the no-op default because object.rs overrides nothing. -/
def Schema.collect_refs : Schema → List String
  | .refS name => [name]
  | .arrS item _ _ => item.collect_refs
  | .oneOfS children => SchemaList.collect_refs children
  | .anyOfS children => SchemaList.collect_refs children
  | .allOfS children => SchemaList.collect_refs children
  | .optionalS inner => inner.collect_refs
  | .objS _ _ _ _ _ => []
  | .strS _ _ _ _ => []
  | .intS _ _ => []

/-- `collect_refs` over a combinator's children, in order. -/
def SchemaList.collect_refs : SchemaList → List String
  | .nil => []
  | .cons hd tl => hd.collect_refs ++ SchemaList.collect_refs tl
end

/-! ## Validation context (src/validation.rs) -/

/-- `ValidationContext`: carries the registry handle (modelled by the
registry's name-to-schema map) and the depth counters. -/
structure ValidationContext where
  registry : List (String × Schema)
  depth : Nat
  max_depth : Nat

/-- `ValidationContext::new`: depth starts at 0. -/
def ValidationContext.new (registry : List (String × Schema)) (max_depth : Nat) :
    ValidationContext :=
  ⟨registry, 0, max_depth⟩

/-- `ValidationContext::increment_depth`: a new context sharing the registry
with `depth + 1`. -/
def ValidationContext.increment_depth (ctx : ValidationContext) : ValidationContext :=
  { ctx with depth := ctx.depth + 1 }

/-- `RegistryAccess::get_schema` over the registry's map (`HashMap::get`,
modelled as first-match association lookup). -/
def lookupSchema : List (String × Schema) → String → Option Schema
  | [], _ => none
  | (k, s) :: rest, name => if k = name then some s else lookupSchema rest name

mutual
/-- `ValueValidator::validate_value_with_context` for a concrete schema.
String, integer and object schemas go through the *default* trait method,
which ignores the context and delegates to the context-free validate — for
`ObjectSchema` this is the behaviour of the source, which never overrides
`validate_with_context`.  Array schemas and combinators forward the context
unchanged to their children; only `RefSchema` consumes it, incrementing the
depth exactly when a reference edge is crossed
(src/schema/ref_schema.rs lines 87-124). -/
def interpCtx : Schema → Json → JsonPath → ValidationContext →
    Validation Json SchemaErrors
  | .strS cs ts customs te, v, p, _ => interpNoCtx (.strS cs ts customs te) v p
  | .intS cs te, v, p, _ => interpNoCtx (.intS cs te) v p
  | .objS fields addl te cross skip, v, p, _ =>
      interpNoCtx (.objS fields addl te cross skip) v p
  | .arrS item cs te, v, p, ctx =>
      (ArraySchema.validate
        ⟨fun v2 p2 => interpCtx item v2 p2 ctx, cs, te⟩ v p).map
        (fun l => Json.arr (JsonList.ofList l))
  | .oneOfS children, v, p, ctx =>
      validate_one_of (interpChildrenCtx children ctx) v p
  | .anyOfS children, v, p, ctx =>
      validate_any_of (interpChildrenCtx children ctx) v p
  | .allOfS children, v, p, ctx =>
      validate_all_of (interpChildrenCtx children ctx) v p
  | .optionalS inner, v, p, ctx =>
      if v.is_null then .success Json.null else interpCtx inner v p ctx
  | .refS name, v, p, ctx =>
      if _h : ctx.depth ≥ ctx.max_depth then
        .failure (SchemaErrors.single
          ((SchemaError.new p
            ("maximum reference depth " ++ toString ctx.max_depth ++
              " exceeded at path " ++ squote ++ p.display ++ squote)).with_code
            "max_depth_exceeded"))
      else
        match lookupSchema ctx.registry name with
        | none =>
            .failure (SchemaErrors.single
              ((SchemaError.new p
                ("schema " ++ squote ++ name ++ squote ++
                  " not found in registry")).with_code "missing_reference"))
        | some sch => interpCtx sch v p ctx.increment_depth
termination_by sch _ _ ctx => (ctx.max_depth - ctx.depth, sizeOf sch)
decreasing_by
  all_goals simp [ValidationContext.increment_depth]
  all_goals omega

/-- Combinator children as context-closed type-erased validators (the source
forwards the same `ValidationContext` to every component). -/
def interpChildrenCtx : SchemaList → ValidationContext → List ValidatorFn
  | .nil, _ => []
  | .cons hd tl, ctx =>
      (fun v p => interpCtx hd v p ctx) :: interpChildrenCtx tl ctx
termination_by sl ctx => (ctx.max_depth - ctx.depth, sizeOf sl)
decreasing_by
  all_goals simp
  all_goals omega
end

/-! ## Registry (src/registry.rs) -/

/-- Errors from registry operations (`RegistryError`). -/
inductive RegistryError where
  | DuplicateName (name : String)
  | SchemaNotFound (name : String)
  deriving DecidableEq, Repr

/-- A named store of schemas with a configured `max_depth` (`SchemaRegistry`;
the `Arc<RwLock<HashMap>>` sharing machinery is out of the sequential model). -/
structure SchemaRegistry where
  schemas : List (String × Schema)
  max_depth : Nat

/-- `SchemaRegistry::new`: empty, with default max depth 100. -/
def SchemaRegistry.new : SchemaRegistry := ⟨[], 100⟩

/-- `SchemaRegistry::with_max_depth`. -/
def SchemaRegistry.with_max_depth (r : SchemaRegistry) (depth : Nat) :
    SchemaRegistry :=
  { r with max_depth := depth }

/-- `HashMap::contains_key` on the registry map. -/
def registryContains (schemas : List (String × Schema)) (name : String) : Bool :=
  schemas.any (fun kv => kv.1 = name)

/-- `SchemaRegistry::register`: duplicate names are rejected. -/
def SchemaRegistry.register (r : SchemaRegistry) (name : String) (sch : Schema) :
    Except RegistryError SchemaRegistry :=
  if registryContains r.schemas name then .error (.DuplicateName name)
  else .ok { r with schemas := r.schemas ++ [(name, sch)] }

/-- `SchemaRegistry::get`. -/
def SchemaRegistry.get (r : SchemaRegistry) (name : String) : Option Schema :=
  lookupSchema r.schemas name

/-- Insertion into a sorted list of strings (the effect of `Vec::sort` is
modelled by insertion sort; equal strings are indistinguishable, so the
sorted result agrees with the source's sort). -/
def insertSorted (s : String) : List String → List String
  | [] => [s]
  | hd :: tl => if s ≤ hd then s :: hd :: tl else hd :: insertSorted s tl

/-- Sorts a list of strings (`unresolved.sort()`). -/
def sortStrings (l : List String) : List String := l.foldr insertSorted []

/-- `Vec::dedup`: removes consecutive duplicates. -/
def dedupConsecutive : List String → List String
  | [] => []
  | [x] => [x]
  | x :: y :: rest =>
      if x = y then dedupConsecutive (y :: rest)
      else x :: dedupConsecutive (y :: rest)

/-- `SchemaRegistry::validate_refs` (src/registry.rs lines 158-178): collect
every registered schema's `collect_refs`, keep the names that are not
registry keys, sort and dedup. -/
def SchemaRegistry.validate_refs (r : SchemaRegistry) : List String :=
  let all_refs := r.schemas.foldl (fun acc kv => acc ++ kv.2.collect_refs) []
  let unresolved := all_refs.filter (fun n => !registryContains r.schemas n)
  dedupConsecutive (sortStrings unresolved)

/-- `SchemaRegistry::validate` (src/registry.rs lines 209-220): look the name
up, build a root context with `depth = 0` and the registry's `max_depth`, and
delegate to the schema's context-aware path. -/
def SchemaRegistry.validate (r : SchemaRegistry) (schema_name : String)
    (value : Json) : Except RegistryError (Validation Json SchemaErrors) :=
  match r.get schema_name with
  | none => .error (.SchemaNotFound schema_name)
  | some sch =>
      .ok (interpCtx sch value JsonPath.root
        (ValidationContext.new r.schemas r.max_depth))

/-! ## Observation helpers and concrete instances used by the theorems -/

/-- The enumerated successful component results of a one-of run: the
`valid` vector computed inside `validate_one_of`. -/
def oneOfSuccesses (schemas : List ValidatorFn) (value : Json) (path : JsonPath) :
    List (Nat × Validation Json SchemaErrors) :=
  (schemas.enum.map (fun q => (q.1, q.2 value path))).filter
    (fun q => q.2.isSuccess)

/-- A compiled-regex stand-in for `^[0-9]+$`: all characters are digits and
the string is non-empty. -/
def digitsMatcher (s : String) : Bool :=
  !s.toList.isEmpty && s.toList.all Char.isDigit

/-- A component validator accepting every value unchanged. -/
def acceptAll : ValidatorFn := fun v _ => .success v

/-- A component validator rejecting every value. -/
def rejectAll : ValidatorFn :=
  fun _ p => .failure (SchemaErrors.single (SchemaError.new p "does not match"))

/-- A bare integer schema as a type-erased item validator. -/
def intValidator : ValidatorFn := interpNoCtx (.intS [] none)

/-- The filter selecting the `unique` errors reported at the array's own
path. -/
def uniqueAt (p : JsonPath) (e : SchemaError) : Bool :=
  e.code == "unique" && e.path == p

/-- The `required` error reported for a missing required field. -/
def requiredError (path : JsonPath) (name : String) : SchemaError :=
  ((SchemaError.new (path.push_field name)
    ("required field " ++ squote ++ name ++ squote ++
      " is missing")).with_code "required").with_expected "value"

/-- An object schema consisting only of required fields with a common field
validator, declared in the order given. -/
def requiredFieldsSchema (names : List String) (fv : ValidatorFn) : ObjectSchema :=
  ⟨names.map (fun n => (n, ⟨fv, true, none⟩)), .allow, none, [], true⟩

/-- The `User` object schema of the reference-integrity scenario: a required
`id` field holding `Ref("UserId")`. -/
def userObjSchema : Schema :=
  .objS (FieldList.ofList [("id", .refS "UserId", true, none)]) .allow none [] true

/-- A registry holding only `User`, with `UserId` unregistered. -/
def userRegistry : SchemaRegistry := ⟨[("User", userObjSchema)], 100⟩

/-- The same registry after `UserId` is also registered. -/
def userRegistryComplete : SchemaRegistry :=
  ⟨[("User", userObjSchema), ("UserId", .intS [.positive none] none)], 100⟩

/-- The self-referencing `Node` schema of the depth-guard scenario: a required
`value` integer field and an optional `next` field holding `Ref("Node")`. -/
def nodeSchema : Schema :=
  .objS (FieldList.ofList
    [("value", .intS [] none, true, none), ("next", .refS "Node", false, none)])
    .allow none [] true

/-- A registry holding `Node` with `max_depth = 5`. -/
def nodeRegistry : SchemaRegistry := ⟨[("Node", nodeSchema)], 5⟩

/-- `build_nested` from the depth-guard scenario: a chain value nested
`depth` levels deep through the `next` field. -/
def nestedChain : Nat → Json
  | 0 => .obj (JsonObj.ofPairs [("value", .num (.posInt 0))])
  | d + 1 => .obj (JsonObj.ofPairs
      [("value", .num (.posInt (d + 1))), ("next", nestedChain d)])

/-- The `missing_registry` error produced by a `Ref` validated without a
context. -/
def missingRegistryError (path : JsonPath) (name : String) : SchemaError :=
  ((SchemaError.new path
    ("reference to " ++ squote ++ name ++ squote ++
      " cannot be validated without a registry. Use SchemaRegistry::validate() instead")).with_code
    "missing_registry")

/-- The `max_depth_exceeded` error produced by a `Ref` when the depth budget
is exhausted. -/
def maxDepthError (path : JsonPath) (max_depth : Nat) : SchemaError :=
  ((SchemaError.new path
    ("maximum reference depth " ++ toString max_depth ++
      " exceeded at path " ++ squote ++ path.display ++ squote)).with_code
    "max_depth_exceeded")

/-- The `missing_reference` error produced by a `Ref` whose name is not in the
registry. -/
def missingReferenceError (path : JsonPath) (name : String) : SchemaError :=
  ((SchemaError.new path
    ("schema " ++ squote ++ name ++ squote ++
      " not found in registry")).with_code "missing_reference")

/-- The `one_of_none_matched` error naming how many schemas were tried. -/
def oneOfNoneError (path : JsonPath) (tried : Nat) : SchemaError :=
  ((SchemaError.new path
    ("value did not match any of " ++ toString tried ++ " schemas")).with_code
    "one_of_none_matched")

/-- The `one_of_multiple_matched` error naming the matching indices. -/
def oneOfMultipleError (path : JsonPath) (n : Nat) (indices : List Nat) : SchemaError :=
  ((SchemaError.new path
    ("value matched " ++ toString n ++ " schemas (indices " ++
      debugIndexList indices ++ "), expected exactly one")).with_code
    "one_of_multiple_matched")

/-! ## Basic lemmas about the result algebra -/

theorem errors_finishValidation (errs : List SchemaError) (ok : α) :
    (finishValidation errs ok).errors = errs := by
  cases errs <;> rfl

theorem isSuccess_finishValidation (errs : List SchemaError) (ok : α) :
    (finishValidation errs ok).isSuccess = true ↔ errs = [] := by
  cases errs <;> simp [finishValidation, Validation.isSuccess]

theorem errors_map (f : α → β) (v : Validation α SchemaErrors) :
    (v.map f).errors = v.errors := by
  cases v <;> rfl

/-! ## Claim theorems -/

/-- C7: for any three error collections `a`, `b`, `c`, combining is
associative — `(a.combine(b)).combine(c)` equals `a.combine(b.combine(c))`
outright, hence they contain the same errors — and `combine` appends the
right operand's errors after the left operand's, preserving insertion order
within each operand. -/
theorem schemaErrors_combine_assoc_append (a b c : SchemaErrors) :
    (a.combine b).combine c = a.combine (b.combine c) ∧
    (a.combine b).toList = a.toList ++ b.toList := by
  refine ⟨SchemaErrors.ext ?_, rfl⟩
  simp [SchemaErrors.combine]

/-- C10: the `AllOf` combinator built from an empty component list is an
identity validator — for every input value it succeeds with (a clone of) the
input value, both on the context-free path and on the context-aware path, and
never produces an error. -/
theorem all_of_empty_is_identity (v : Json) (p : JsonPath) (ctx : ValidationContext) :
    validate_all_of [] v p = .success v ∧
    interpNoCtx (.allOfS .nil) v p = .success v ∧
    interpCtx (.allOfS .nil) v p ctx = .success v := by
  refine ⟨rfl, rfl, ?_⟩
  simp [interpCtx, interpChildrenCtx, validate_all_of]

/-- C5: a string schema accumulates every failing constraint: on a string
input the reported errors are exactly those contributed by the failing
constraints, in constraint order, followed by the custom-validator errors —
and the validation succeeds exactly when that list is empty.  Concretely, the
schema `min_len(10)` plus a digits pattern, applied to `"abc"`, reports
exactly the two errors `min_length` and `pattern`. -/
theorem string_constraint_accumulation (cs : List StringConstraint)
    (ts : List Transform) (customs : List CustomStringValidator)
    (te : Option String) (s : String) (p : JsonPath) :
    (StringSchema.validate ⟨cs, ts, customs, te⟩ (.str s) p).errors
      = cs.filterMap (fun c => c.check (applyTransforms ts s) p)
        ++ customs.flatMap (fun v => unitErrors (v (applyTransforms ts s) p)) ∧
    ((StringSchema.validate ⟨cs, ts, customs, te⟩ (.str s) p).isSuccess = true ↔
      cs.filterMap (fun c => c.check (applyTransforms ts s) p)
        ++ customs.flatMap (fun v => unitErrors (v (applyTransforms ts s) p)) = []) ∧
    ((StringSchema.validate
        ((StringSchema.new.min_len 10).patternWith digitsMatcher "^[0-9]+$")
        (.str "abc") p).errors.map (fun e => e.code) = ["min_length", "pattern"]) := by
  refine ⟨?_, ?_, ?_⟩
  · simp [StringSchema.validate, errors_finishValidation]
  · simp [StringSchema.validate, isSuccess_finishValidation]
  · rfl

/-- C6: an integer schema type-checks strictly and short-circuits on type
failure: a non-number input yields exactly the one `invalid_type` error (no
constraint errors), a float yields exactly the one `invalid_type` error with
got `"float"`, a `u64` above `i64::MAX` yields exactly the one `overflow`
error, and only an i64-representable number reaches the registered
constraints. -/
theorem integer_type_strictness (cs : List IntegerConstraint) (te : Option String)
    (p : JsonPath) :
    (∀ v : Json, v.isNumber = false →
      IntegerSchema.validate ⟨cs, te⟩ v p
        = .failure (SchemaErrors.single
            (((SchemaError.new p (te.getD "expected integer")).with_code
              "invalid_type").with_got (value_type_name v) |>.with_expected
              "integer"))) ∧
    (IntegerSchema.validate ⟨cs, te⟩ (.num .float) p
      = .failure (SchemaErrors.single
          (((SchemaError.new p (te.getD "expected integer, got float")).with_code
            "invalid_type").with_got "float" |>.with_expected "integer"))) ∧
    (∀ n : Nat, i64Max < (n : Int) →
      IntegerSchema.validate ⟨cs, te⟩ (.num (.posInt n)) p
        = .failure (SchemaErrors.single
            (((SchemaError.new p
              (te.getD "integer value too large for i64")).with_code
              "overflow").with_got (toString n) |>.with_expected
              "integer in i64 range"))) ∧
    (∀ num : JNum, num.is_i64 = true →
      IntegerSchema.validate ⟨cs, te⟩ (.num num) p
        = finishValidation (cs.filterMap (fun c => c.check num.as_i64 p))
            num.as_i64) := by
  refine ⟨?_, ?_, ?_, ?_⟩
  · intro v hv
    cases v <;> simp_all [Json.isNumber] <;> rfl
  · rfl
  · intro n hn
    simp [IntegerSchema.validate, JNum.is_i64, JNum.is_u64, JNum.as_u64, hn,
      not_le.mpr hn]
  · intro num hnum
    simp [IntegerSchema.validate, hnum, IntegerSchema.runConstraints]

/-- Witness for C6: the schema `integer().min(10)` rejects the string
`"abc"` with the single `invalid_type` error (no `min_value` error), rejects
`2^63` with the single `overflow` error, and runs its constraints on the
in-range value `5`. -/
theorem integer_type_strictness_witness :
    ((Json.str "abc").isNumber = false ∧
      IntegerSchema.validate ⟨[.min 10 none], none⟩ (.str "abc") JsonPath.root
        = .failure (SchemaErrors.single
            (((SchemaError.new JsonPath.root "expected integer").with_code
              "invalid_type").with_got "string" |>.with_expected "integer"))) ∧
    (i64Max < ((2 ^ 63 : Nat) : Int) ∧
      IntegerSchema.validate ⟨[.min 10 none], none⟩ (.num (.posInt (2 ^ 63)))
          JsonPath.root
        = .failure (SchemaErrors.single
            (((SchemaError.new JsonPath.root
              "integer value too large for i64").with_code
              "overflow").with_got (toString (2 ^ 63 : Nat)) |>.with_expected
              "integer in i64 range"))) ∧
    ((JNum.posInt 5).is_i64 = true ∧
      IntegerSchema.validate ⟨[.min 10 none], none⟩ (.num (.posInt 5)) JsonPath.root
        = finishValidation
            ([IntegerConstraint.min 10 none].filterMap
              (fun c => c.check (JNum.posInt 5).as_i64 JsonPath.root))
            (JNum.posInt 5).as_i64) :=
  ⟨⟨rfl, (integer_type_strictness [.min 10 none] none JsonPath.root).1
      (.str "abc") rfl⟩,
   ⟨by decide, (integer_type_strictness [.min 10 none] none JsonPath.root).2.2.1
      (2 ^ 63) (by decide)⟩,
   ⟨rfl, (integer_type_strictness [.min 10 none] none JsonPath.root).2.2.2
      (.posInt 5) rfl⟩⟩

/-- The declared-fields loop over an empty input object reports one `required`
error per declared required field, appended in declaration order. -/
theorem validateDeclaredFields_empty_input (p : JsonPath) (fv : ValidatorFn)
    (names : List String) (acc : List SchemaError × List (String × Json)) :
    validateDeclaredFields .nil p (names.map (fun n => (n, ⟨fv, true, none⟩))) acc
      = (acc.1 ++ names.map (requiredError p), acc.2) := by
  induction names generalizing acc with
  | nil => simp [validateDeclaredFields]
  | cons n rest ih =>
      simp [validateDeclaredFields, JsonObj.get, ih, requiredError]

/-- C8: an object schema validates its declared fields in the order they were
added and its errors surface in that same order: for a schema of required
fields declared in any order `names`, validating the empty object reports one
`required` error per name, in declaration order; in particular declaring
`z, a, m` yields error paths `z, a, m` — declaration order, not alphabetical
order. -/
theorem object_required_error_order (names : List String) (fv : ValidatorFn)
    (p : JsonPath) :
    ((requiredFieldsSchema names fv).validate (.obj .nil) p).errors
      = names.map (requiredError p) ∧
    (((requiredFieldsSchema ["z", "a", "m"] fv).validate (.obj .nil) p).errors.map
        (fun e => e.path)
      = [p.push_field "z", p.push_field "a", p.push_field "m"]) := by
  have key : ∀ ns : List String,
      ((requiredFieldsSchema ns fv).validate (.obj .nil) p).errors
        = ns.map (requiredError p) := by
    intro ns
    simp only [requiredFieldsSchema, ObjectSchema.validate,
      validateDeclaredFields_empty_input, validateAdditionalProps,
      runCrossFieldValidators, List.foldl_nil, List.nil_append]
    split
    · simp [errors_finishValidation]
    · simp [errors_finishValidation]
  refine ⟨key names, ?_⟩
  simp [key ["z", "a", "m"], requiredError, SchemaError.new, SchemaError.with_code,
    SchemaError.with_expected]

/-- `validate_one_of` as a case split on the filtered success list. -/
theorem validate_one_of_eq (schemas : List ValidatorFn) (v : Json) (p : JsonPath) :
    validate_one_of schemas v p
      = match oneOfSuccesses schemas v p with
        | [] => .failure (SchemaErrors.single (oneOfNoneError p schemas.length))
        | [(_, r)] =>
            match r with
            | .success w => .success w
            | .failure _ => .success v
        | vs =>
            .failure (SchemaErrors.single
              (oneOfMultipleError p vs.length (vs.map (fun q => q.1)))) := rfl

/-- C4: the `OneOf` combinator runs every component against the value; with
exactly one successful component the overall result is that component's
success value; with zero successes it fails with the single
`one_of_none_matched` error whose message names how many schemas were tried;
with two or more successes it fails with the single `one_of_multiple_matched`
error whose message names the matching indices — regardless of whether the
matching values are equal. -/
theorem one_of_tie_break (schemas : List ValidatorFn) (v : Json) (p : JsonPath) :
    (oneOfSuccesses schemas v p = [] →
      validate_one_of schemas v p
        = .failure (SchemaErrors.single (oneOfNoneError p schemas.length))) ∧
    (∀ i w, oneOfSuccesses schemas v p = [(i, .success w)] →
      validate_one_of schemas v p = .success w) ∧
    (∀ x y rest, oneOfSuccesses schemas v p = x :: y :: rest →
      validate_one_of schemas v p
        = .failure (SchemaErrors.single
            (oneOfMultipleError p (x :: y :: rest).length
              ((x :: y :: rest).map (fun q => q.1))))) := by
  refine ⟨?_, ?_, ?_⟩
  · intro h
    rw [validate_one_of_eq, h]
  · intro i w h
    rw [validate_one_of_eq, h]
  · intro x y rest h
    rw [validate_one_of_eq, h]

/-- Witness for C4: two all-accepting components sharing the value `"hello"`
fail with `one_of_multiple_matched` naming indices 0 and 1; two rejecting
components fail with `one_of_none_matched` naming 2 tried schemas; one
accepting and one rejecting component succeed with the accepted value. -/
theorem one_of_tie_break_witness :
    (oneOfSuccesses [acceptAll, acceptAll] (.str "hello") JsonPath.root
        = [(0, .success (.str "hello")), (1, .success (.str "hello"))] ∧
      validate_one_of [acceptAll, acceptAll] (.str "hello") JsonPath.root
        = .failure (SchemaErrors.single
            (oneOfMultipleError JsonPath.root 2 [0, 1]))) ∧
    (oneOfSuccesses [rejectAll, rejectAll] (.str "") JsonPath.root = [] ∧
      validate_one_of [rejectAll, rejectAll] (.str "") JsonPath.root
        = .failure (SchemaErrors.single (oneOfNoneError JsonPath.root 2))) ∧
    (oneOfSuccesses [acceptAll, rejectAll] (.str "x") JsonPath.root
        = [(0, .success (.str "x"))] ∧
      validate_one_of [acceptAll, rejectAll] (.str "x") JsonPath.root
        = .success (.str "x")) :=
  ⟨⟨rfl, (one_of_tie_break [acceptAll, acceptAll] (.str "hello") JsonPath.root).2.2
      (0, .success (.str "hello")) (1, .success (.str "hello")) [] rfl⟩,
   ⟨rfl, (one_of_tie_break [rejectAll, rejectAll] (.str "") JsonPath.root).1 rfl⟩,
   ⟨rfl, (one_of_tie_break [acceptAll, rejectAll] (.str "x") JsonPath.root).2.1
      0 (.str "x") rfl⟩⟩

/-- The context-aware interpretation of a `Ref` node as a case split: depth
guard first, then registry lookup, then recursion at incremented depth. -/
theorem interpCtx_ref (name : String) (v : Json) (p : JsonPath)
    (ctx : ValidationContext) :
    interpCtx (.refS name) v p ctx
      = if ctx.max_depth ≤ ctx.depth then
          .failure (SchemaErrors.single (maxDepthError p ctx.max_depth))
        else
          match lookupSchema ctx.registry name with
          | none => .failure (SchemaErrors.single (missingReferenceError p name))
          | some sch => interpCtx sch v p ctx.increment_depth := by
  rw [interpCtx]
  simp only [ge_iff_le, maxDepthError, missingReferenceError]
  split <;> rfl

/-- C3: a `Ref` node validated without a context always fails with the single
`missing_registry` error; with a context whose depth has reached `max_depth`
it fails with the single `max_depth_exceeded` error without consulting the
registry; below the limit, a registry miss fails with the single
`missing_reference` error; and a registry hit validates the resolved schema
against the same value and path under a context whose depth is exactly one
greater (sharing the same registry and limit). -/
theorem ref_node_semantics (name : String) (v : Json) (p : JsonPath)
    (ctx : ValidationContext) :
    (RefSchema.validate ⟨name⟩ v p
      = .failure (SchemaErrors.single (missingRegistryError p name))) ∧
    (ctx.max_depth ≤ ctx.depth →
      interpCtx (.refS name) v p ctx
        = .failure (SchemaErrors.single (maxDepthError p ctx.max_depth))) ∧
    (ctx.depth < ctx.max_depth → lookupSchema ctx.registry name = none →
      interpCtx (.refS name) v p ctx
        = .failure (SchemaErrors.single (missingReferenceError p name))) ∧
    (∀ sch, ctx.depth < ctx.max_depth → lookupSchema ctx.registry name = some sch →
      interpCtx (.refS name) v p ctx = interpCtx sch v p ctx.increment_depth) ∧
    (ctx.increment_depth.depth = ctx.depth + 1 ∧
      ctx.increment_depth.registry = ctx.registry ∧
      ctx.increment_depth.max_depth = ctx.max_depth) := by
  refine ⟨rfl, ?_, ?_, ?_, rfl, rfl, rfl⟩
  · intro h
    rw [interpCtx_ref, if_pos h]
  · intro h hmiss
    rw [interpCtx_ref, if_neg (by omega), hmiss]
  · intro sch h hhit
    rw [interpCtx_ref, if_neg (by omega), hhit]

/-- Witness for C3: at depth 5 of limit 5 the `Ref` fails with
`max_depth_exceeded`; at depth 0 with an empty registry it fails with
`missing_reference`; at depth 0 with `A` registered it recurses into `A` at
depth 1. -/
theorem ref_node_semantics_witness :
    ((5 : Nat) ≤ 5 ∧
      interpCtx (.refS "A") (.str "x") JsonPath.root
          ⟨[("A", .intS [] none)], 5, 5⟩
        = .failure (SchemaErrors.single (maxDepthError JsonPath.root 5))) ∧
    ((0 : Nat) < 5 ∧ lookupSchema ([] : List (String × Schema)) "A" = none ∧
      interpCtx (.refS "A") (.str "x") JsonPath.root ⟨[], 0, 5⟩
        = .failure (SchemaErrors.single (missingReferenceError JsonPath.root "A"))) ∧
    (lookupSchema [("A", Schema.intS [] none)] "A" = some (.intS [] none) ∧
      interpCtx (.refS "A") (.str "x") JsonPath.root
          ⟨[("A", .intS [] none)], 0, 5⟩
        = interpCtx (.intS [] none) (.str "x") JsonPath.root
            (ValidationContext.increment_depth ⟨[("A", .intS [] none)], 0, 5⟩)) :=
  ⟨⟨by decide,
    (ref_node_semantics "A" (.str "x") JsonPath.root
      ⟨[("A", .intS [] none)], 5, 5⟩).2.1 (by decide)⟩,
   ⟨by decide, rfl,
    (ref_node_semantics "A" (.str "x") JsonPath.root ⟨[], 0, 5⟩).2.2.1
      (by decide) rfl⟩,
   ⟨rfl,
    (ref_node_semantics "A" (.str "x") JsonPath.root
      ⟨[("A", .intS [] none)], 0, 5⟩).2.2.2.1 (.intS [] none) (by decide) rfl⟩⟩

/-- C1 (code bug, evaluation at the failing input): `validate_refs` does not
see references nested
inside object-schema fields, because `impl SchemaLike for ObjectSchema` never
overrides the no-op default `collect_refs`.  With `User` registered as an
object holding `Ref("UserId")` and `UserId` unregistered, `collect_refs` on
the object returns nothing and `validate_refs()` returns `[]` — not
`["UserId"]` as the spec and the crate's own tests and doc examples state.
(Registering `UserId` afterwards also returns `[]`, vacuously as claimed.) -/
theorem validate_refs_misses_object_nested_ref :
    userObjSchema.collect_refs = [] ∧
    userRegistry.validate_refs = [] ∧
    userRegistryComplete.validate_refs = [] ∧
    (Schema.refS "UserId").collect_refs = ["UserId"] :=
  ⟨rfl, rfl, rfl, rfl⟩

/-- C2 (code bug, evaluation at the failing input): the validation context is
not forwarded into
object fields, because `impl SchemaLike for ObjectSchema` never overrides
`validate_with_context`; its default drops the context and delegates to the
context-free path, where the nested `Ref("Node")` immediately fails with
`missing_registry`.  A chain nested 2 deep therefore fails (the spec and the
crate's own test expect success), and a chain nested 20 deep fails with
`missing_registry` rather than `max_depth_exceeded`. -/
theorem node_chain_fails_missing_registry :
    nodeRegistry.validate "Node" (nestedChain 2)
      = .ok (.failure (SchemaErrors.single
          (missingRegistryError (JsonPath.root.push_field "next") "Node"))) ∧
    (match nodeRegistry.validate "Node" (nestedChain 20) with
      | .ok r => r.errors.map (fun e => e.code)
      | .error _ => []) = ["missing_registry"] := by
  constructor
  · simp [SchemaRegistry.validate, SchemaRegistry.get, lookupSchema,
      nodeRegistry, nodeSchema, interpCtx, ValidationContext.new,
      missingRegistryError]
    rfl
  · simp [SchemaRegistry.validate, SchemaRegistry.get, lookupSchema,
      nodeRegistry, nodeSchema, interpCtx, ValidationContext.new]
    rfl

/-- `JsonList.ofList` and `JsonList.toList` are inverse. -/
theorem toList_ofList (l : List Json) : (JsonList.ofList l).toList = l := by
  induction l with
  | nil => rfl
  | cons hd tl ih => simp [JsonList.ofList, JsonList.toList, ih]

/-- Every error an integer constraint check produces sits at the path the
check was given. -/
theorem integerConstraint_check_path (c : IntegerConstraint) (n : Int)
    (q : JsonPath) (e : SchemaError) (h : c.check n q = some e) : e.path = q := by
  cases c <;>
    simp only [IntegerConstraint.check] at h <;>
    split at h <;>
    first
      | exact Option.noConfusion h
      | (injection h with h2; subst h2; rfl)

/-- Every error the integer schema reports sits at the path it was given. -/
theorem integerSchema_errors_path (sch : IntegerSchema) (v : Json) (q : JsonPath)
    (e : SchemaError) (h : e ∈ (IntegerSchema.validate sch v q).errors) :
    e.path = q := by
  cases v with
  | num num =>
      simp only [IntegerSchema.validate] at h
      split at h
      · simp only [IntegerSchema.runConstraints, errors_finishValidation,
          List.mem_filterMap] at h
        obtain ⟨c, _, hc⟩ := h
        exact integerConstraint_check_path c _ q e hc
      · split at h
        · split at h
          · simp only [IntegerSchema.runConstraints, errors_finishValidation,
              List.mem_filterMap] at h
            obtain ⟨c, _, hc⟩ := h
            exact integerConstraint_check_path c _ q e hc
          · simp_all [Validation.errors, SchemaErrors.single, SchemaError.new,
              SchemaError.with_code, SchemaError.with_expected, SchemaError.with_got]
        · simp_all [Validation.errors, SchemaErrors.single, SchemaError.new,
            SchemaError.with_code, SchemaError.with_expected, SchemaError.with_got]
  | null =>
      simp_all [IntegerSchema.validate, Validation.errors, SchemaErrors.single,
        SchemaError.new, SchemaError.with_code, SchemaError.with_expected,
        SchemaError.with_got]
  | bool b =>
      simp_all [IntegerSchema.validate, Validation.errors, SchemaErrors.single,
        SchemaError.new, SchemaError.with_code, SchemaError.with_expected,
        SchemaError.with_got]
  | str s =>
      simp_all [IntegerSchema.validate, Validation.errors, SchemaErrors.single,
        SchemaError.new, SchemaError.with_code, SchemaError.with_expected,
        SchemaError.with_got]
  | arr items =>
      simp_all [IntegerSchema.validate, Validation.errors, SchemaErrors.single,
        SchemaError.new, SchemaError.with_code, SchemaError.with_expected,
        SchemaError.with_got]
  | obj entries =>
      simp_all [IntegerSchema.validate, Validation.errors, SchemaErrors.single,
        SchemaError.new, SchemaError.with_code, SchemaError.with_expected,
        SchemaError.with_got]

/-- The bare integer item validator reports errors only at extensions of the
path it is given (here: exactly at it). -/
theorem intValidator_path_extension (it : Json) (q : JsonPath) (e : SchemaError)
    (h : e ∈ (intValidator it q).errors) :
    ∃ t, e.path.segments = q.segments ++ t := by
  have h2 : e ∈ (IntegerSchema.validate ⟨[], none⟩ it q).errors := by
    simpa [intValidator, interpNoCtx, errors_map] using h
  exact ⟨[], by simp [integerSchema_errors_path _ _ _ _ h2]⟩

/-- Every error of the item-validation loop comes from validating some item at
an index-suffixed path. -/
theorem validateArrayItems_errors_mem (itemF : ValidatorFn) (p : JsonPath)
    (items : List Json) (idx : Nat) (e : SchemaError)
    (h : e ∈ (validateArrayItems itemF p items idx).2) :
    ∃ it i, e ∈ (itemF it (p.push_index i)).errors := by
  induction items generalizing idx with
  | nil => simp [validateArrayItems] at h
  | cons hd tl ih =>
      simp only [validateArrayItems] at h
      split at h
      · exact ih (idx + 1) h
      · rename_i heq
        rw [List.mem_append] at h
        rcases h with h | h
        · exact ⟨hd, idx, by simp [Validation.errors, heq, h]⟩
        · exact ih (idx + 1) h

/-- Length-constraint errors are never `unique` errors. -/
theorem arrayLengthErrors_filter_uniqueAt (cs : List ArrayConstraint) (len : Nat)
    (p : JsonPath) :
    (arrayLengthErrors cs len p).filter (uniqueAt p) = [] := by
  rw [List.filter_eq_nil_iff]
  intro e he
  rw [arrayLengthErrors, List.mem_flatMap] at he
  obtain ⟨c, _, hc⟩ := he
  cases c with
  | minLength min message =>
      simp only [lengthConstraintErrors] at hc
      split at hc
      · simp only [List.mem_singleton] at hc
        subst hc
        simp [uniqueAt, SchemaError.new, SchemaError.with_code,
          SchemaError.with_expected, SchemaError.with_got]
      · simp at hc
  | maxLength max message =>
      simp only [lengthConstraintErrors] at hc
      split at hc
      · simp only [List.mem_singleton] at hc
        subst hc
        simp [uniqueAt, SchemaError.new, SchemaError.with_code,
          SchemaError.with_expected, SchemaError.with_got]
      · simp at hc
  | unique message => simp [lengthConstraintErrors] at hc
  | uniqueBy keyFn message => simp [lengthConstraintErrors] at hc

/-- Item-validation errors never sit at the array's own path, provided the
item validator respects path extension; so none of them pass the `unique`
filter. -/
theorem itemErrors_filter_uniqueAt (itemF : ValidatorFn) (p : JsonPath)
    (items : List Json)
    (hpath : ∀ it q e, e ∈ (itemF it q).errors →
      ∃ t, e.path.segments = q.segments ++ t) :
    ((validateArrayItems itemF p items 0).2).filter (uniqueAt p) = [] := by
  rw [List.filter_eq_nil_iff]
  intro e he
  obtain ⟨it, i, hmem⟩ := validateArrayItems_errors_mem itemF p items 0 e he
  obtain ⟨t, ht⟩ := hpath it (p.push_index i) e hmem
  have hne : e.path ≠ p := by
    intro hcontra
    rw [hcontra] at ht
    simp [JsonPath.push_index] at ht
  simp [uniqueAt, hne]

/-- Uniqueness-pass errors all carry code `unique` at the array's own path,
so the `unique` filter keeps all of them. -/
theorem arrayUniqueErrors_filter_uniqueAt (cs : List ArrayConstraint)
    (arr : List Json) (p : JsonPath) :
    (arrayUniqueErrors cs arr p).filter (uniqueAt p)
      = arrayUniqueErrors cs arr p := by
  rw [List.filter_eq_self]
  intro e he
  rw [arrayUniqueErrors, List.mem_flatMap] at he
  obtain ⟨c, _, hc⟩ := he
  have base : ∀ (word : String) (msg : Option String)
      (dups : List (String × List Nat)),
      e ∈ uniqueErrors word p msg dups → uniqueAt p e = true := by
    intro word msg dups hmem
    rw [uniqueErrors, List.mem_flatMap] at hmem
    obtain ⟨g, _, hg⟩ := hmem
    split at hg <;>
      simp_all [uniqueErrorOf, uniqueAt, SchemaError.new, SchemaError.with_code,
        SchemaError.with_got]
  cases c <;> simp only [uniqueConstraintErrors] at hc
  · simp at hc
  · simp at hc
  · exact base _ _ _ hc
  · exact base _ _ _ hc

/-- C9: array uniqueness is computed over the raw input items, independently
of item validation: for every item validator that reports errors only at
extensions of the path it is given, every constraint list and every array
input, the `unique` errors reported at the array's path are exactly the
uniqueness-pass errors derived from `find_duplicates` over the raw items —
one error naming the offending indices per serialized-key group with more
than one member, whether or not the duplicate items themselves validate. -/
theorem array_unique_over_raw_items (itemF : ValidatorFn)
    (cs : List ArrayConstraint) (items : List Json) (p : JsonPath)
    (hpath : ∀ it q e, e ∈ (itemF it q).errors →
      ∃ t, e.path.segments = q.segments ++ t) :
    ((ArraySchema.validate ⟨itemF, cs, none⟩ (.arr (JsonList.ofList items))
        p).errors.filter (uniqueAt p))
      = arrayUniqueErrors cs items p := by
  simp only [ArraySchema.validate, toList_ofList, errors_finishValidation]
  rw [List.filter_append, List.filter_append,
    arrayLengthErrors_filter_uniqueAt, itemErrors_filter_uniqueAt itemF p items hpath,
    arrayUniqueErrors_filter_uniqueAt, List.nil_append, List.nil_append]

/-- Witness for C9: the array `["a", "a", 1]` against an integer item schema
with a `unique` constraint reports the two `invalid_type` item errors — both
duplicates fail item validation — and still exactly one `unique` error naming
indices 0 and 1. -/
theorem array_unique_over_raw_items_witness :
    ((ArraySchema.validate ⟨intValidator, [.unique none], none⟩
        (.arr (JsonList.ofList [.str "a", .str "a", .num (.posInt 1)]))
        JsonPath.root).errors.filter (uniqueAt JsonPath.root))
      = arrayUniqueErrors [.unique none] [.str "a", .str "a", .num (.posInt 1)]
          JsonPath.root ∧
    arrayUniqueErrors [.unique none] [.str "a", .str "a", .num (.posInt 1)]
        JsonPath.root
      = [uniqueErrorOf "value" JsonPath.root none [0, 1]] ∧
    ((ArraySchema.validate ⟨intValidator, [.unique none], none⟩
        (.arr (JsonList.ofList [.str "a", .str "a", .num (.posInt 1)]))
        JsonPath.root).errors.map (fun e => e.code))
      = ["invalid_type", "invalid_type", "unique"] :=
  ⟨array_unique_over_raw_items intValidator [.unique none]
      [.str "a", .str "a", .num (.posInt 1)] JsonPath.root
      intValidator_path_extension,
   rfl, rfl⟩

end Postmortem
